import Mathlib

/-!
Shallow embedding of `src/ble_scan.c` (a gattlib BLE-scan example program)
together with proofs about its behaviour.

External gattlib calls are modelled by oracles that supply their return
values and the data they would produce; each C function becomes a Lean
function from its inputs and its oracle to the list of observable events it
performs (log lines, library calls, allocations, frees, lock operations)
plus its resulting state.  The two concurrency claims are settled over
small-step transition systems whose steps correspond one-to-one to the
pthread operations appearing in the source.
-/

namespace BleScan

/-- The C macro `BLE_SCAN_TIMEOUT`, value 10. -/
def BLE_SCAN_TIMEOUT : Nat := 10

/-- The C macro `CONNECT_DEVICE_NAME`, the compile-time name filter. -/
def CONNECT_DEVICE_NAME : String := "Local"

/-- gattlib's success return code (`GATTLIB_SUCCESS` is 0). -/
def GATTLIB_SUCCESS : Int := 0

/-- One entry of the array returned by `gattlib_discover_primary`. -/
structure GattService where
  attr_handle_start : Nat
  attr_handle_end : Nat
  uuid : String
  deriving DecidableEq, Repr

/-- One entry of the array returned by `gattlib_discover_char`. -/
structure GattCharacteristic where
  properties : Nat
  value_handle : Nat
  uuid : String
  deriving DecidableEq, Repr

/-- Oracle for the gattlib calls made inside `on_device_connect`: the return
codes of `gattlib_discover_primary`, `gattlib_discover_char` and
`gattlib_disconnect`, and the arrays the two discovery calls hand back. -/
structure ConnectCbEnv where
  discoverPrimaryRet : Int
  services : List GattService
  discoverCharRet : Int
  characteristics : List GattCharacteristic
  disconnectRet : Int
  deriving DecidableEq, Repr

/-- Observable events of a run of `on_device_connect` (library calls, printf
output, frees, and the done-handoff pthread operations at its end). -/
inductive CbEvent where
  | discoverPrimaryCall
  | logPrimaryFail
  | printService (i : Nat) (startHandle endHandle : Nat) (uuid : String)
  | freeServices
  | discoverCharCall
  | logCharFail
  | printCharacteristic (i : Nat) (props valueHandle : Nat) (uuid : String)
  | freeCharacteristics
  | disconnectCall
  | logDisconnectFail
  | lockDoneMutex
  | setIsDone
  | signalDoneCond
  | unlockDoneMutex
  deriving DecidableEq, Repr

/-- The tail of `on_device_connect` from the `disconnect_exit` label on:
always disconnect, log if that fails, then take the record's own lock, set
`is_done`, signal the condition and unlock. -/
def disconnectExitSeq (env : ConnectCbEnv) : List CbEvent :=
  [CbEvent.disconnectCall]
    ++ (if env.disconnectRet ≠ GATTLIB_SUCCESS then [CbEvent.logDisconnectFail] else [])
    ++ [CbEvent.lockDoneMutex, CbEvent.setIsDone, CbEvent.signalDoneCond,
        CbEvent.unlockDoneMutex]

/-- `on_device_connect` (src/ble_scan.c lines 53-102) as a trace function.
The C callback receives an `error` argument from the connect attempt; the
body never reads it (mirrored faithfully here: `error` does not occur on the
right-hand side), and proceeds straight to service discovery. -/
def on_device_connect (error : Int) (env : ConnectCbEnv) : List CbEvent :=
  if env.discoverPrimaryRet ≠ 0 then
    [CbEvent.discoverPrimaryCall, CbEvent.logPrimaryFail] ++ disconnectExitSeq env
  else
    [CbEvent.discoverPrimaryCall]
      ++ env.services.enum.map
          (fun p => CbEvent.printService p.1 p.2.attr_handle_start p.2.attr_handle_end p.2.uuid)
      ++ [CbEvent.freeServices]
      ++ (if env.discoverCharRet ≠ 0 then
            [CbEvent.discoverCharCall, CbEvent.logCharFail] ++ disconnectExitSeq env
          else
            [CbEvent.discoverCharCall]
              ++ env.characteristics.enum.map
                  (fun p => CbEvent.printCharacteristic p.1 p.2.properties p.2.value_handle p.2.uuid)
              ++ [CbEvent.freeCharacteristics]
              ++ disconnectExitSeq env)

/-- The record type `struct connection_t`.  A C record also owns a
`done_mutex`/`done_cond` pair; those have no data content, so only their
init/destroy operations appear, as events.  The `thread` field holds the id
of the worker spawned for this record; the same id doubles as the record's
allocation identity (each `calloc` in the source yields a distinct record,
modelled by a fresh id drawn from an allocation counter). -/
structure connection_t where
  thread : Nat
  adapter : Nat
  addr : String
  is_done : Bool
  deriving DecidableEq, Repr

/-- Oracle for one invocation of the discovery callback: whether the
`calloc` succeeds and the return code of `pthread_create`. -/
structure DiscOracle where
  callocOk : Bool
  pthreadCreateRet : Int
  deriving DecidableEq, Repr

/-- Observable events of the scan-controller side: discovery-callback
actions (prints, allocations, frees, insertion) and `ble_task` actions
(adapter open/close, the g_mutex lock/unlock, scan calls, the drain loop's
joins and releases).  Events carrying a `rid` name the record they act on. -/
inductive Ev where
  | printDiscoveredName (addr name : String)
  | printDiscoveredNoName (addr : String)
  | callocRecord (rid : Nat)
  | logAllocFail
  | strdupAddr (rid : Nat) (addr : String)
  | doneMutexInit (rid : Nat)
  | doneCondInit (rid : Nat)
  | pthreadCreateOk (rid : Nat)
  | logThreadCreateFail
  | freeRecord (rid : Nat)
  | insertHead (rid : Nat)
  | adapterOpenCall
  | logOpenFail
  | lockG
  | unlockG
  | scanEnableCall
  | logScanFail
  | scanDisableCall
  | putsScanCompleted
  | joinThread (tid : Nat)
  | freeAddrMem (rid : Nat)
  | doneMutexDestroy (rid : Nat)
  | doneCondDestroy (rid : Nat)
  | adapterCloseCall
  deriving DecidableEq, Repr

/-- Mutable state seen by the discovery callback: the head-insertion list
`g_ble_connections`, the allocation counter producing fresh record/thread
ids, and the set of thread ids for which `pthread_create` succeeded. -/
structure DiscState where
  g_ble_connections : List connection_t
  nextRid : Nat
  spawnedThreads : List Nat
  deriving DecidableEq, Repr

/-- `ble_discovered_device` (src/ble_scan.c lines 130-167) as a trace
function.  Order of operations mirrors the source: print, name filter,
`calloc` (log and return on failure), `strdup` the address, init the done
mutex and condition, `pthread_create` (log, `free(connection)` and return on
failure - note the source frees only the struct, not the strdup'd address),
and finally `LIST_INSERT_HEAD`. -/
def ble_discovered_device (adapter : Nat) (addr : String) (name : Option String)
    (o : DiscOracle) (s : DiscState) : List Ev × DiscState :=
  match name with
  | none => ([Ev.printDiscoveredNoName addr], s)
  | some n =>
    if n ≠ CONNECT_DEVICE_NAME then
      ([Ev.printDiscoveredName addr n], s)
    else if ¬ o.callocOk then
      ([Ev.printDiscoveredName addr n, Ev.logAllocFail], s)
    else
      let rid := s.nextRid
      let record : connection_t :=
        { thread := rid, adapter := adapter, addr := addr, is_done := false }
      let evs :=
        [Ev.printDiscoveredName addr n, Ev.callocRecord rid, Ev.strdupAddr rid addr,
         Ev.doneMutexInit rid, Ev.doneCondInit rid]
      if o.pthreadCreateRet ≠ 0 then
        (evs ++ [Ev.logThreadCreateFail, Ev.freeRecord rid],
         { s with nextRid := rid + 1 })
      else
        (evs ++ [Ev.pthreadCreateOk rid, Ev.insertHead rid],
         { g_ble_connections := record :: s.g_ble_connections,
           nextRid := rid + 1,
           spawnedThreads := rid :: s.spawnedThreads })

/-- One advertisement delivered during the scan window, with the oracle for
the callback invocation it triggers. -/
structure Advert where
  addr : String
  name : Option String
  disc : DiscOracle
  deriving DecidableEq, Repr

/-- The scan call delivering its advertisements: one synchronous callback
invocation per advertisement, on the controller's own call stack. -/
def runCallbacks (adapter : Nat) : List Advert → DiscState → List Ev × DiscState
  | [], s => ([], s)
  | a :: rest, s =>
    let r1 := ble_discovered_device adapter a.addr a.name a.disc s
    let r2 := runCallbacks adapter rest r1.2
    (r1.1 ++ r2.1, r2.2)

/-- The controller's drain loop (src/ble_scan.c lines 193-201): while the
list head is non-null, join the head's thread, remove it, free its address,
destroy its mutex and condition, free the record.  Returns the events and
the remaining list when the loop exits. -/
def drainLoop : List connection_t → List Ev × List connection_t
  | [] => ([], [])
  | c :: rest =>
    let r := drainLoop rest
    ([Ev.joinThread c.thread, Ev.freeAddrMem c.thread, Ev.doneMutexDestroy c.thread,
      Ev.doneCondDestroy c.thread, Ev.freeRecord c.thread] ++ r.1, r.2)

/-- Oracle for one run of `ble_task`: the return codes of
`gattlib_adapter_open` and `gattlib_adapter_scan_enable`, and the
advertisements the scan delivers. -/
structure TaskOracle where
  adapterOpenRet : Int
  scanRet : Int
  ads : List Advert
  deriving DecidableEq, Repr

/-- Result of a run of `ble_task`: its event trace, the registry contents
when it returns, whether a scan was attempted, the threads spawned, and the
value the C function returns (always NULL - modelled as `none` - on every
path, so no status can flow to the caller). -/
structure TaskResult where
  events : List Ev
  registry : List connection_t
  scanAttempted : Bool
  spawned : List Nat
  retVal : Option Int
  deriving DecidableEq, Repr

/-- The state after `main`'s `LIST_INIT(&g_ble_connections)`: empty registry,
no record allocated yet, no thread spawned yet. -/
def initialState : DiscState :=
  { g_ble_connections := [], nextRid := 0, spawnedThreads := [] }

/-- `ble_task` (src/ble_scan.c lines 169-206) as a trace function.  On
adapter-open failure it logs and returns at once (no scan, no close).  On
scan failure the `goto EXIT` skips both the `pthread_mutex_unlock(&g_mutex)`
and the drain loop, going straight to `gattlib_adapter_close`. -/
def ble_task (o : TaskOracle) : TaskResult :=
  if o.adapterOpenRet ≠ 0 then
    { events := [Ev.adapterOpenCall, Ev.logOpenFail], registry := [],
      scanAttempted := false, spawned := [], retVal := none }
  else if o.scanRet ≠ 0 then
    { events := [Ev.adapterOpenCall, Ev.lockG, Ev.scanEnableCall]
        ++ (runCallbacks 0 o.ads initialState).1
        ++ [Ev.logScanFail, Ev.adapterCloseCall],
      registry := (runCallbacks 0 o.ads initialState).2.g_ble_connections,
      scanAttempted := true,
      spawned := (runCallbacks 0 o.ads initialState).2.spawnedThreads,
      retVal := none }
  else
    { events := [Ev.adapterOpenCall, Ev.lockG, Ev.scanEnableCall]
        ++ (runCallbacks 0 o.ads initialState).1
        ++ [Ev.scanDisableCall, Ev.putsScanCompleted, Ev.unlockG]
        ++ (drainLoop (runCallbacks 0 o.ads initialState).2.g_ble_connections).1
        ++ [Ev.adapterCloseCall],
      registry := (drainLoop (runCallbacks 0 o.ads initialState).2.g_ble_connections).2,
      scanAttempted := true,
      spawned := (runCallbacks 0 o.ads initialState).2.spawnedThreads,
      retVal := none }

/-- Effect of one event on the `g_mutex` held/not-held state. -/
def gLockFold (h : Bool) (e : Ev) : Bool :=
  match e with
  | Ev.lockG => true
  | Ev.unlockG => false
  | _ => h

/-- Whether `g_mutex` is held after the given trace, reading only the
`lockG`/`unlockG` events the model emits at the source's lock sites. -/
def gHeldAfter (evs : List Ev) : Bool :=
  evs.foldl gLockFold false

/-- Events that the discovery callback can emit. -/
def discEv (e : Ev) : Bool :=
  match e with
  | Ev.printDiscoveredName _ _ | Ev.printDiscoveredNoName _ | Ev.callocRecord _
  | Ev.logAllocFail | Ev.strdupAddr _ _ | Ev.doneMutexInit _ | Ev.doneCondInit _
  | Ev.pthreadCreateOk _ | Ev.logThreadCreateFail | Ev.freeRecord _
  | Ev.insertHead _ => true
  | _ => false

/-- Events that the drain loop can emit. -/
def drainEv (e : Ev) : Bool :=
  match e with
  | Ev.joinThread _ | Ev.freeAddrMem _ | Ev.doneMutexDestroy _
  | Ev.doneCondDestroy _ | Ev.freeRecord _ => true
  | _ => false

/-- Whether `g_mutex` is held at the moment `gattlib_adapter_close` runs. -/
def gMutexHeldAtClose (r : TaskResult) : Bool :=
  gHeldAfter (r.events.takeWhile (fun e => e ≠ Ev.adapterCloseCall))

/-- The record id an event acts on, if any. -/
def ridOf (e : Ev) : Option Nat :=
  match e with
  | Ev.callocRecord r | Ev.strdupAddr r _ | Ev.doneMutexInit r | Ev.doneCondInit r
  | Ev.pthreadCreateOk r | Ev.freeRecord r | Ev.insertHead r | Ev.joinThread r
  | Ev.freeAddrMem r | Ev.doneMutexDestroy r | Ev.doneCondDestroy r => some r
  | _ => none

/-- The record ids inserted into the registry, in insertion order. -/
def insertedIds (evs : List Ev) : List Nat :=
  evs.filterMap (fun e => match e with | Ev.insertHead r => some r | _ => none)

/-- The thread ids joined by the drain loop, in join order. -/
def joinedIds (evs : List Ev) : List Nat :=
  evs.filterMap (fun e => match e with | Ev.joinThread t => some t | _ => none)

/-- Result of a run of `main`. -/
structure MainResult where
  exitCode : Int
  usagePrinted : Bool
  task : Option TaskResult
  deriving DecidableEq, Repr

/-- `main` (src/ble_scan.c lines 208-229).  With zero or one argument it
initialises the list and calls `gattlib_mainloop(ble_task, NULL)`, returning
the mainloop's own status; otherwise it prints usage and returns 1.
`gattlib_mainloop` is external library code whose contract is to invoke the
supplied task and report its own dispatch status (`mainloopRet`); since
`ble_task` returns NULL on every path, no status produced inside the task
can influence that value. -/
def main_model (argc : Nat) (mainloopRet : Int) (o : TaskOracle) : MainResult :=
  if argc = 1 ∨ argc = 2 then
    { exitCode := mainloopRet, usagePrinted := false, task := some (ble_task o) }
  else
    { exitCode := 1, usagePrinted := true, task := none }

/-- An advertisement carrying the matching name, whose allocation and
thread spawn both succeed. -/
def adLocal (addr : String) : Advert :=
  { addr := addr, name := some "Local",
    disc := { callocOk := true, pthreadCreateRet := 0 } }

/-- A sample run: adapter opens, scan succeeds, one matching device. -/
def sampleRunOneMatch : TaskOracle :=
  { adapterOpenRet := 0, scanRet := 0, ads := [adLocal "AA"] }

/-- A sample run: adapter opens, scan succeeds, two matching devices. -/
def sampleRunTwoMatches : TaskOracle :=
  { adapterOpenRet := 0, scanRet := 0, ads := [adLocal "AA", adLocal "BB"] }

/-- Program counter of a worker thread running `ble_connect_device`
(src/ble_scan.c lines 104-128), identified by the statement it is about to
execute.  `start` is before `pthread_mutex_lock(&g_mutex)` (line 110);
`printStartSt` through `unlockSt` are the statements executed while holding
`g_mutex`: the START printf, the `gattlib_connect` call, the whole
done-condition wait block (lines 119-123, whose internal `done_mutex`
interplay is modelled separately by `RStep`), the DONE printf, and the
`pthread_mutex_unlock(&g_mutex)` (line 126); `finished` is after it. -/
inductive WPC where
  | start
  | printStartSt
  | connectSt
  | waitSt
  | printDoneSt
  | unlockSt
  | finished
  deriving DecidableEq, Repr

/-- A worker is inside its connect/discover/disconnect sequence exactly
between its `g_mutex` lock and unlock. -/
def inCritical (p : WPC) : Bool :=
  match p with
  | WPC.start | WPC.finished => false
  | _ => true

/-- Global state for `n` worker threads contending for `g_mutex`: the lock's
owner (none = unlocked) and each worker's program counter.  The controller
also locks `g_mutex` around the scan, but the scan finishes before it
unlocks, and every worker only competes with other workers afterwards; the
controller could only delay the first acquisition, not break exclusion. -/
structure GMutexSys (n : Nat) where
  gOwner : Option (Fin n)
  pcs : Fin n → WPC

/-- All workers start before their `pthread_mutex_lock(&g_mutex)`. -/
def gInit (n : Nat) : GMutexSys n :=
  { gOwner := none, pcs := fun _ => WPC.start }

/-- Interleaving semantics of the workers' pthread operations on `g_mutex`:
a blocked `pthread_mutex_lock` proceeds only when the mutex is free; the
statements in between run without touching the mutex; `pthread_mutex_unlock`
frees it.  The unlock step carries no ownership premise - it models the C
call as written; the invariant proves the unlocking worker owns the mutex. -/
inductive GStep (n : Nat) : GMutexSys n → GMutexSys n → Prop where
  | acquire (s : GMutexSys n) (i : Fin n) (h : s.pcs i = WPC.start)
      (ho : s.gOwner = none) :
      GStep n s { gOwner := some i, pcs := Function.update s.pcs i WPC.printStartSt }
  | printStart (s : GMutexSys n) (i : Fin n) (h : s.pcs i = WPC.printStartSt) :
      GStep n s { s with pcs := Function.update s.pcs i WPC.connectSt }
  | connectCall (s : GMutexSys n) (i : Fin n) (h : s.pcs i = WPC.connectSt) :
      GStep n s { s with pcs := Function.update s.pcs i WPC.waitSt }
  | doneWait (s : GMutexSys n) (i : Fin n) (h : s.pcs i = WPC.waitSt) :
      GStep n s { s with pcs := Function.update s.pcs i WPC.printDoneSt }
  | printDone (s : GMutexSys n) (i : Fin n) (h : s.pcs i = WPC.printDoneSt) :
      GStep n s { s with pcs := Function.update s.pcs i WPC.unlockSt }
  | release (s : GMutexSys n) (i : Fin n) (h : s.pcs i = WPC.unlockSt) :
      GStep n s { gOwner := none, pcs := Function.update s.pcs i WPC.finished }

/-- States reachable from the all-workers-spawned initial state. -/
def GReach (n : Nat) (s : GMutexSys n) : Prop :=
  Relation.ReflTransGen (GStep n) (gInit n) s

/-- The `g_mutex` invariant: every worker inside its critical section owns
the mutex. -/
def GInv {n : Nat} (s : GMutexSys n) : Prop :=
  ∀ i, inCritical (s.pcs i) = true → s.gOwner = some i

/-- The two parties touching one record's `done_mutex`: the worker waiting
in `ble_connect_device` and the `on_device_connect` callback. -/
inductive DOwner where
  | worker
  | callbackThread
  deriving DecidableEq, Repr

/-- Program counter of the worker's done-wait block (src/ble_scan.c lines
119-123): about to lock `done_mutex`; about to test `!is_done`; parked in
`pthread_cond_wait` (mutex released); out of the loop, about to unlock;
done. -/
inductive WaitPC where
  | beforeLock
  | checkFlag
  | inWait
  | afterLoop
  | unlocked
  deriving DecidableEq, Repr

/-- Program counter of the callback's completion handoff (src/ble_scan.c
lines 97-101): still in its discovery/disconnect body; about to lock
`done_mutex`; about to set `is_done`; about to signal `done_cond`; about to
unlock; returned. -/
inductive CbPC where
  | body
  | beforeLock
  | setFlag
  | signalStep
  | beforeUnlock
  | finished
  deriving DecidableEq, Repr

/-- Shared state of one record's completion handoff: the `is_done` flag, the
`done_mutex` owner, both parties' program counters, and a counter of
`pthread_cond_signal` calls performed on `done_cond`. -/
structure RecordSys where
  is_done : Bool
  doneOwner : Option DOwner
  wpc : WaitPC
  cpc : CbPC
  signals : Nat
  deriving DecidableEq, Repr

/-- State when the worker reaches line 119 and the callback is running. -/
def recordInit : RecordSys :=
  { is_done := false, doneOwner := none, wpc := WaitPC.beforeLock,
    cpc := CbPC.body, signals := 0 }

/-- Interleaving semantics of the record handoff.  `workerCheckFalse` is
`pthread_cond_wait` releasing the mutex; `workerWake` is the wakeup
re-acquiring it (allowed whenever the mutex is free, which also covers
spurious wakeups, a sound over-approximation of `pthread_cond_wait`). -/
inductive RStep : RecordSys → RecordSys → Prop where
  | workerLock (s : RecordSys) (h : s.wpc = WaitPC.beforeLock)
      (ho : s.doneOwner = none) :
      RStep s { s with doneOwner := some DOwner.worker, wpc := WaitPC.checkFlag }
  | workerCheckTrue (s : RecordSys) (h : s.wpc = WaitPC.checkFlag)
      (hd : s.is_done = true) :
      RStep s { s with wpc := WaitPC.afterLoop }
  | workerCheckFalse (s : RecordSys) (h : s.wpc = WaitPC.checkFlag)
      (hd : s.is_done = false) :
      RStep s { s with wpc := WaitPC.inWait, doneOwner := none }
  | workerWake (s : RecordSys) (h : s.wpc = WaitPC.inWait)
      (ho : s.doneOwner = none) :
      RStep s { s with wpc := WaitPC.checkFlag, doneOwner := some DOwner.worker }
  | workerUnlock (s : RecordSys) (h : s.wpc = WaitPC.afterLoop) :
      RStep s { s with wpc := WaitPC.unlocked, doneOwner := none }
  | cbBody (s : RecordSys) (h : s.cpc = CbPC.body) :
      RStep s { s with cpc := CbPC.beforeLock }
  | cbLock (s : RecordSys) (h : s.cpc = CbPC.beforeLock)
      (ho : s.doneOwner = none) :
      RStep s { s with doneOwner := some DOwner.callbackThread, cpc := CbPC.setFlag }
  | cbSet (s : RecordSys) (h : s.cpc = CbPC.setFlag) :
      RStep s { s with is_done := true, cpc := CbPC.signalStep }
  | cbSignal (s : RecordSys) (h : s.cpc = CbPC.signalStep) :
      RStep s { s with signals := s.signals + 1, cpc := CbPC.beforeUnlock }
  | cbUnlock (s : RecordSys) (h : s.cpc = CbPC.beforeUnlock) :
      RStep s { s with doneOwner := none, cpc := CbPC.finished }

/-- States of the handoff reachable from `recordInit`. -/
def RReach (s : RecordSys) : Prop := Relation.ReflTransGen RStep recordInit s

/-- Callback positions at which it holds `done_mutex`. -/
def cpcCrit (c : CbPC) : Bool :=
  match c with
  | CbPC.setFlag | CbPC.signalStep | CbPC.beforeUnlock => true
  | _ => false

/-- Worker positions at which it holds `done_mutex`. -/
def wpcCrit (w : WaitPC) : Bool :=
  match w with
  | WaitPC.checkFlag | WaitPC.afterLoop => true
  | _ => false

/-- Callback positions after the `is_done = true` assignment. -/
def cpcLate (c : CbPC) : Bool :=
  match c with
  | CbPC.signalStep | CbPC.beforeUnlock | CbPC.finished => true
  | _ => false

/-- Callback positions after the `pthread_cond_signal` call. -/
def cpcSignaled (c : CbPC) : Bool :=
  match c with
  | CbPC.beforeUnlock | CbPC.finished => true
  | _ => false

/-- Inductive invariant of the handoff: the mutex owner matches the two
parties' positions, `is_done` is set exactly past the assignment, and the
signal count is 0 before the signal and 1 after. -/
def RInv (s : RecordSys) : Prop :=
  (cpcCrit s.cpc = true → s.doneOwner = some DOwner.callbackThread) ∧
  (s.doneOwner = some DOwner.callbackThread → cpcCrit s.cpc = true) ∧
  (wpcCrit s.wpc = true → s.doneOwner = some DOwner.worker) ∧
  (s.doneOwner = some DOwner.worker → wpcCrit s.wpc = true) ∧
  (s.is_done = cpcLate s.cpc) ∧
  (s.signals = if cpcSignaled s.cpc then 1 else 0) ∧
  ((s.wpc = WaitPC.afterLoop ∨ s.wpc = WaitPC.unlocked) → s.is_done = true)

end BleScan

namespace BleScan

/-- C6: the callback never branches on its `error` argument: the trace is the
same for every error value.  In particular a failed connect (nonzero error)
still performs service discovery on the handle. -/
theorem on_device_connect_ignores_error :
    ∀ (error : Int) (env : ConnectCbEnv),
      on_device_connect error env = on_device_connect 0 env ∧
      CbEvent.discoverPrimaryCall ∈ on_device_connect error env := by
  intro error env
  refine ⟨rfl, ?_⟩
  unfold on_device_connect
  by_cases h : env.discoverPrimaryRet ≠ 0 <;> simp [h]

/-- C6, concrete failing input: connect reported error `-1`, yet the callback
calls `gattlib_discover_primary` on the connection handle anyway. -/
theorem on_device_connect_error_neg_one_still_discovers :
    CbEvent.discoverPrimaryCall ∈
      on_device_connect (-1)
        { discoverPrimaryRet := 0, services := [], discoverCharRet := 0,
          characteristics := [], disconnectRet := 0 } := by
  decide

/-- C8: every run of `on_device_connect` performs the disconnect call, and
when primary-service discovery fails the characteristic-discovery call is
never attempted. -/
theorem on_device_connect_disconnect_always :
    ∀ (error : Int) (env : ConnectCbEnv),
      CbEvent.disconnectCall ∈ on_device_connect error env ∧
      (env.discoverPrimaryRet ≠ 0 →
        CbEvent.discoverCharCall ∉ on_device_connect error env) := by
  intro error env
  unfold on_device_connect disconnectExitSeq
  constructor
  · by_cases h1 : env.discoverPrimaryRet ≠ 0 <;>
      by_cases h2 : env.discoverCharRet ≠ 0 <;>
      by_cases h3 : env.disconnectRet ≠ GATTLIB_SUCCESS <;>
      simp [h1, h2, h3]
  · intro h1
    by_cases h3 : env.disconnectRet ≠ GATTLIB_SUCCESS <;>
      simp [h1, h3]

/-- C8 witness: a concrete environment where primary discovery fails: the
disconnect happens and characteristic discovery is skipped. -/
theorem on_device_connect_disconnect_always_witness :
    CbEvent.disconnectCall ∈
        on_device_connect 0
          { discoverPrimaryRet := 1, services := [], discoverCharRet := 0,
            characteristics := [], disconnectRet := 0 } ∧
      CbEvent.discoverCharCall ∉
        on_device_connect 0
          { discoverPrimaryRet := 1, services := [], discoverCharRet := 0,
            characteristics := [], disconnectRet := 0 } := by
  have h := on_device_connect_disconnect_always 0
    { discoverPrimaryRet := 1, services := [], discoverCharRet := 0,
      characteristics := [], disconnectRet := 0 }
  exact ⟨h.1, h.2 (by decide)⟩

theorem takeWhile_append_all {α : Type} (p : α → Bool) (l1 l2 : List α)
    (h : ∀ e ∈ l1, p e = true) :
    (l1 ++ l2).takeWhile p = l1 ++ l2.takeWhile p := by
  induction l1 with
  | nil => simp
  | cons a l ih =>
    have ha : p a = true := h a (by simp)
    simp only [List.cons_append, List.takeWhile_cons, ha]
    simp only [ih fun e he => h e (by simp [he]), if_true]

theorem bdd_events_disc (a : Nat) (addr : String) (nm : Option String)
    (o : DiscOracle) (s : DiscState) :
    ∀ e ∈ (ble_discovered_device a addr nm o s).1, discEv e = true := by
  intro e he
  rcases nm with _ | n
  · simp only [ble_discovered_device, List.mem_singleton] at he
    subst he; rfl
  · simp only [ble_discovered_device] at he
    split_ifs at he <;> cases e <;> simp_all [discEv]

theorem runCallbacks_events_disc (a : Nat) (ads : List Advert) (s : DiscState) :
    ∀ e ∈ (runCallbacks a ads s).1, discEv e = true := by
  induction ads generalizing s with
  | nil => simp [runCallbacks]
  | cons ad rest ih =>
    intro e he
    simp only [runCallbacks, List.mem_append] at he
    rcases he with he | he
    · exact bdd_events_disc a ad.addr ad.name ad.disc s e he
    · exact ih _ e he

theorem drainLoop_events_drain (reg : List connection_t) :
    ∀ e ∈ (drainLoop reg).1, drainEv e = true := by
  induction reg with
  | nil => simp [drainLoop]
  | cons c rest ih =>
    intro e he
    simp only [drainLoop, List.mem_cons, List.mem_append, List.not_mem_nil,
      or_false] at he
    rcases he with (rfl | rfl | rfl | rfl | rfl) | he
    · rfl
    · rfl
    · rfl
    · rfl
    · rfl
    · exact ih e he

theorem discEv_not_lock {e : Ev} (h : discEv e = true) :
    e ≠ Ev.lockG ∧ e ≠ Ev.unlockG ∧ e ≠ Ev.adapterCloseCall := by
  cases e <;> simp_all [discEv]

theorem drainEv_not_lock {e : Ev} (h : drainEv e = true) :
    e ≠ Ev.lockG ∧ e ≠ Ev.unlockG ∧ e ≠ Ev.adapterCloseCall := by
  cases e <;> simp_all [drainEv]

theorem foldl_gLockFold_const (evs : List Ev)
    (h : ∀ e ∈ evs, e ≠ Ev.lockG ∧ e ≠ Ev.unlockG) (b : Bool) :
    evs.foldl gLockFold b = b := by
  induction evs generalizing b with
  | nil => rfl
  | cons e rest ih =>
    have he := h e (by simp)
    have hrest : ∀ x ∈ rest, x ≠ Ev.lockG ∧ x ≠ Ev.unlockG :=
      fun x hx => h x (by simp [hx])
    have hstep : gLockFold b e = b := by
      cases e <;> simp_all [gLockFold]
    simp [List.foldl_cons, hstep, ih hrest]

/-- C4 counterexample: a run in which the adapter opens but the scan call
fails.  The controller does reach cleanup (`gattlib_adapter_close` runs),
yet `g_mutex` is still held there: the `goto EXIT` jumps over the
`pthread_mutex_unlock(&g_mutex)`. -/
theorem scan_fail_lock_held_at_close :
    Ev.adapterCloseCall ∈
        (ble_task { adapterOpenRet := 0, scanRet := 1, ads := [] }).events ∧
      gMutexHeldAtClose (ble_task { adapterOpenRet := 0, scanRet := 1, ads := [] })
        = true := by
  decide

/-- C4 amended: the controller releases `g_mutex` before cleanup and adapter
close exactly when the scan call succeeds; when the scan call fails, it
reaches the adapter close still holding the lock. -/
theorem g_mutex_release_iff_scan_ok (o : TaskOracle)
    (hopen : o.adapterOpenRet = 0) :
    (o.scanRet = 0 → gMutexHeldAtClose (ble_task o) = false) ∧
    (o.scanRet ≠ 0 → gMutexHeldAtClose (ble_task o) = true) := by
  have hnotopen : ¬ o.adapterOpenRet ≠ 0 := by simp [hopen]
  have hcbdisc := runCallbacks_events_disc 0 o.ads initialState
  have hcbnl : ∀ e ∈ (runCallbacks 0 o.ads initialState).1,
      e ≠ Ev.lockG ∧ e ≠ Ev.unlockG := by
    intro e he
    have h := discEv_not_lock (hcbdisc e he)
    exact ⟨h.1, h.2.1⟩
  have hcbnc : ∀ e ∈ (runCallbacks 0 o.ads initialState).1,
      (decide (e ≠ Ev.adapterCloseCall)) = true := by
    intro e he
    have h := discEv_not_lock (hcbdisc e he)
    simp [h.2.2]
  have hdrdisc := drainLoop_events_drain
    (runCallbacks 0 o.ads initialState).2.g_ble_connections
  have hdrnl : ∀ e ∈ (drainLoop (runCallbacks 0 o.ads initialState).2.g_ble_connections).1,
      e ≠ Ev.lockG ∧ e ≠ Ev.unlockG := by
    intro e he
    have h := drainEv_not_lock (hdrdisc e he)
    exact ⟨h.1, h.2.1⟩
  have hdrnc : ∀ e ∈ (drainLoop (runCallbacks 0 o.ads initialState).2.g_ble_connections).1,
      (decide (e ≠ Ev.adapterCloseCall)) = true := by
    intro e he
    have h := drainEv_not_lock (hdrdisc e he)
    simp [h.2.2]
  constructor
  · intro hscan
    have hnotscan : ¬ o.scanRet ≠ 0 := by simp [hscan]
    unfold ble_task
    rw [if_neg hnotopen, if_neg hnotscan]
    unfold gMutexHeldAtClose gHeldAfter
    simp only [List.cons_append, List.nil_append, List.append_assoc]
    rw [List.takeWhile_cons_of_pos (by decide), List.takeWhile_cons_of_pos (by decide),
      List.takeWhile_cons_of_pos (by decide),
      takeWhile_append_all _ _ _ hcbnc,
      List.takeWhile_cons_of_pos (by decide), List.takeWhile_cons_of_pos (by decide),
      List.takeWhile_cons_of_pos (by decide),
      takeWhile_append_all _ _ _ hdrnc,
      List.takeWhile_cons_of_neg (by decide)]
    simp only [List.foldl_cons, List.foldl_append, List.append_nil]
    rw [foldl_gLockFold_const _ hcbnl, foldl_gLockFold_const _ hdrnl]
    rfl
  · intro hscan
    unfold ble_task
    rw [if_neg hnotopen, if_pos hscan]
    unfold gMutexHeldAtClose gHeldAfter
    simp only [List.cons_append, List.nil_append, List.append_assoc]
    rw [List.takeWhile_cons_of_pos (by decide), List.takeWhile_cons_of_pos (by decide),
      List.takeWhile_cons_of_pos (by decide),
      takeWhile_append_all _ _ _ hcbnc,
      List.takeWhile_cons_of_pos (by decide), List.takeWhile_cons_of_neg (by decide)]
    simp only [List.foldl_cons, List.foldl_append, List.append_nil]
    rw [foldl_gLockFold_const _ hcbnl]
    rfl

/-- C4 amended witness: concrete runs of both branches. -/
theorem g_mutex_release_iff_scan_ok_witness :
    gMutexHeldAtClose (ble_task { adapterOpenRet := 0, scanRet := 0, ads := [] })
        = false ∧
      gMutexHeldAtClose (ble_task { adapterOpenRet := 0, scanRet := 2, ads := [] })
        = true := by
  refine ⟨(g_mutex_release_iff_scan_ok
      { adapterOpenRet := 0, scanRet := 0, ads := [] } rfl).1 rfl, ?_⟩
  exact (g_mutex_release_iff_scan_ok
      { adapterOpenRet := 0, scanRet := 2, ads := [] } rfl).2 (by decide)

/-- C3 counterexample: `gattlib_adapter_open` fails with status 5 while the
mainloop machinery itself reports 0; the process exit code is 0, not the
adapter-open error: `ble_task` returns NULL on every path, so the open
status is discarded.  The no-scan/no-worker half of the claim does hold. -/
theorem adapter_open_status_not_propagated :
    (main_model 1 0 { adapterOpenRet := 5, scanRet := 0, ads := [] }).exitCode = 0 ∧
      ¬ (main_model 1 0 { adapterOpenRet := 5, scanRet := 0, ads := [] }).exitCode = 5 ∧
      (ble_task { adapterOpenRet := 5, scanRet := 0, ads := [] }).scanAttempted = false ∧
      (ble_task { adapterOpenRet := 5, scanRet := 0, ads := [] }).spawned = [] := by
  decide

/-- C3 amended: if opening the adapter fails, no scan is attempted, no
worker thread is spawned, and `ble_task` returns NULL; the adapter-open
status is discarded, so the process exit code is just the mainloop call's
own status. -/
theorem adapter_open_fail_no_scan_no_worker (o : TaskOracle) (argc : Nat)
    (mret : Int) (hopen : o.adapterOpenRet ≠ 0) (hargc : argc = 1 ∨ argc = 2) :
    (ble_task o).scanAttempted = false ∧
    (ble_task o).spawned = [] ∧
    (ble_task o).retVal = none ∧
    Ev.scanEnableCall ∉ (ble_task o).events ∧
    (∀ t, Ev.pthreadCreateOk t ∉ (ble_task o).events) ∧
    (main_model argc mret o).exitCode = mret := by
  unfold ble_task main_model
  rw [if_pos hopen, if_pos hargc]
  refine ⟨rfl, rfl, rfl, by decide, ?_, rfl⟩
  intro t ht
  simp at ht

/-- C3 amended witness: adapter open fails with status 3, mainloop status 7:
nothing is scanned or spawned and the exit code is 7. -/
theorem adapter_open_fail_no_scan_no_worker_witness :
    (ble_task { adapterOpenRet := 3, scanRet := 0, ads := [] }).scanAttempted = false ∧
      (ble_task { adapterOpenRet := 3, scanRet := 0, ads := [] }).spawned = [] ∧
      (main_model 1 7 { adapterOpenRet := 3, scanRet := 0, ads := [] }).exitCode = 7 := by
  have h := adapter_open_fail_no_scan_no_worker
    { adapterOpenRet := 3, scanRet := 0, ads := [] } 1 7 (by decide) (Or.inl rfl)
  exact ⟨h.1, h.2.1, h.2.2.2.2.2⟩

/-- C5 counterexample: one matching advertisement whose worker thread fails
to spawn (`pthread_create` returns 11).  Across the entire run the strdup'd
address string of record 0 is allocated and the record struct is freed, but
no event ever frees the address string: it leaks, contrary to the claim
that all memory for the skipped device is released. -/
theorem thread_create_fail_leaks_addr_string :
    Ev.strdupAddr 0 "AA:BB:CC:DD:EE:FF" ∈
        (ble_task { adapterOpenRet := 0, scanRet := 0,
                    ads := [{ addr := "AA:BB:CC:DD:EE:FF", name := some "Local",
                              disc := { callocOk := true,
                                        pthreadCreateRet := 11 } }] }).events ∧
      Ev.logThreadCreateFail ∈
        (ble_task { adapterOpenRet := 0, scanRet := 0,
                    ads := [{ addr := "AA:BB:CC:DD:EE:FF", name := some "Local",
                              disc := { callocOk := true,
                                        pthreadCreateRet := 11 } }] }).events ∧
      Ev.freeRecord 0 ∈
        (ble_task { adapterOpenRet := 0, scanRet := 0,
                    ads := [{ addr := "AA:BB:CC:DD:EE:FF", name := some "Local",
                              disc := { callocOk := true,
                                        pthreadCreateRet := 11 } }] }).events ∧
      Ev.freeAddrMem 0 ∉
        (ble_task { adapterOpenRet := 0, scanRet := 0,
                    ads := [{ addr := "AA:BB:CC:DD:EE:FF", name := some "Local",
                              disc := { callocOk := true,
                                        pthreadCreateRet := 11 } }] }).events := by
  decide

/-- C5 amended: on allocation failure the error is logged and nothing is
allocated or inserted; on thread-spawn failure the error is logged, the
record struct is freed and no record is inserted, but the copied address
string (allocated by `strdup`) is never freed by the callback: it leaks. -/
theorem discovery_failure_skips_device (a : Nat) (addr : String)
    (o : DiscOracle) (s : DiscState) :
    (o.callocOk = false →
       (ble_discovered_device a addr (some CONNECT_DEVICE_NAME) o s).1
           = [Ev.printDiscoveredName addr CONNECT_DEVICE_NAME, Ev.logAllocFail] ∧
         (ble_discovered_device a addr (some CONNECT_DEVICE_NAME) o s).2 = s) ∧
    (o.callocOk = true → o.pthreadCreateRet ≠ 0 →
       Ev.logThreadCreateFail
           ∈ (ble_discovered_device a addr (some CONNECT_DEVICE_NAME) o s).1 ∧
         Ev.freeRecord s.nextRid
           ∈ (ble_discovered_device a addr (some CONNECT_DEVICE_NAME) o s).1 ∧
         (ble_discovered_device a addr (some CONNECT_DEVICE_NAME) o s).2.g_ble_connections
           = s.g_ble_connections ∧
         Ev.insertHead s.nextRid
           ∉ (ble_discovered_device a addr (some CONNECT_DEVICE_NAME) o s).1 ∧
         Ev.strdupAddr s.nextRid addr
           ∈ (ble_discovered_device a addr (some CONNECT_DEVICE_NAME) o s).1 ∧
         (∀ rid, Ev.freeAddrMem rid
           ∉ (ble_discovered_device a addr (some CONNECT_DEVICE_NAME) o s).1)) := by
  constructor
  · intro hcalloc
    simp [ble_discovered_device, hcalloc]
  · intro hcalloc hcreate
    simp [ble_discovered_device, hcalloc, hcreate]

/-- C5 amended witness: concrete thread-spawn failure. -/
theorem discovery_failure_skips_device_witness :
    Ev.logThreadCreateFail ∈
        (ble_discovered_device 0 "AA" (some CONNECT_DEVICE_NAME)
          { callocOk := true, pthreadCreateRet := 7 } initialState).1 ∧
      (ble_discovered_device 0 "AA" (some CONNECT_DEVICE_NAME)
          { callocOk := true, pthreadCreateRet := 7 } initialState).2.g_ble_connections
        = [] ∧
      Ev.freeAddrMem 0 ∉
        (ble_discovered_device 0 "AA" (some CONNECT_DEVICE_NAME)
          { callocOk := true, pthreadCreateRet := 7 } initialState).1 := by
  have h := (discovery_failure_skips_device 0 "AA"
      { callocOk := true, pthreadCreateRet := 7 } initialState).2 rfl (by decide)
  exact ⟨h.1, h.2.2.1, h.2.2.2.2.2 0⟩

/-- C7: a record is created and a worker spawned exactly for advertisements
whose name equals `CONNECT_DEVICE_NAME`: no name or a different name leaves
the registry untouched and spawns nothing; a matching name (with allocation
and spawn succeeding) creates exactly one record, inserted at the head of
the registry before the callback returns, and spawns exactly one thread;
conversely a spawn or a registry change only happens for a matching name. -/
theorem discovery_name_filter (a : Nat) (addr : String) (nm : Option String)
    (o : DiscOracle) (s : DiscState) :
    (nm = none →
       (ble_discovered_device a addr nm o s).2 = s ∧
         (ble_discovered_device a addr nm o s).1 = [Ev.printDiscoveredNoName addr]) ∧
    (∀ n, nm = some n → n ≠ CONNECT_DEVICE_NAME →
       (ble_discovered_device a addr nm o s).2 = s ∧
         (ble_discovered_device a addr nm o s).1 = [Ev.printDiscoveredName addr n]) ∧
    (nm = some CONNECT_DEVICE_NAME → o.callocOk = true → o.pthreadCreateRet = 0 →
       (ble_discovered_device a addr nm o s).2.g_ble_connections
           = { thread := s.nextRid, adapter := a, addr := addr, is_done := false }
               :: s.g_ble_connections ∧
         (ble_discovered_device a addr nm o s).1.count (Ev.callocRecord s.nextRid) = 1 ∧
         (ble_discovered_device a addr nm o s).1.count (Ev.pthreadCreateOk s.nextRid) = 1 ∧
         (ble_discovered_device a addr nm o s).1.count (Ev.insertHead s.nextRid) = 1) ∧
    (∀ t, Ev.pthreadCreateOk t ∈ (ble_discovered_device a addr nm o s).1 →
       nm = some CONNECT_DEVICE_NAME) ∧
    ((ble_discovered_device a addr nm o s).2.g_ble_connections ≠ s.g_ble_connections →
       nm = some CONNECT_DEVICE_NAME) := by
  refine ⟨?_, ?_, ?_, ?_, ?_⟩
  · rintro rfl
    simp [ble_discovered_device]
  · rintro n rfl hne
    simp [ble_discovered_device, hne]
  · rintro rfl hcalloc hcreate
    have hcreate' : ¬ o.pthreadCreateRet ≠ 0 := by simp [hcreate]
    simp [ble_discovered_device, hcalloc, hcreate', List.count_cons]
  · intro t ht
    rcases nm with _ | n
    · simp [ble_discovered_device] at ht
    · simp only [ble_discovered_device] at ht
      split_ifs at ht with h1 h2 h3 <;> simp_all
  · intro hch
    rcases nm with _ | n
    · simp [ble_discovered_device] at hch
    · simp only [ble_discovered_device] at hch
      split_ifs at hch with h1 h2 h3 <;> simp_all

/-- C7 witness: a matching advertisement with allocation and spawn both
succeeding, starting from the initial state. -/
theorem discovery_name_filter_witness :
    (ble_discovered_device 0 "AA" (some CONNECT_DEVICE_NAME)
          { callocOk := true, pthreadCreateRet := 0 } initialState).2.g_ble_connections
        = [{ thread := 0, adapter := 0, addr := "AA", is_done := false }] ∧
      (ble_discovered_device 0 "AA" (some CONNECT_DEVICE_NAME)
          { callocOk := true, pthreadCreateRet := 0 } initialState).1.count
          (Ev.pthreadCreateOk 0) = 1 ∧
      (ble_discovered_device 0 "AA" (some CONNECT_DEVICE_NAME)
          { callocOk := true, pthreadCreateRet := 0 } initialState).1.count
          (Ev.insertHead 0) = 1 := by
  have h := (discovery_name_filter 0 "AA" (some CONNECT_DEVICE_NAME)
      { callocOk := true, pthreadCreateRet := 0 } initialState).2.2.1 rfl rfl rfl
  exact ⟨h.1, h.2.2.1, h.2.2.2⟩

theorem mem_insertedIds (evs : List Ev) (k : Nat) :
    k ∈ insertedIds evs ↔ Ev.insertHead k ∈ evs := by
  induction evs with
  | nil => simp [insertedIds]
  | cons e rest ih =>
    cases e <;> simp_all [insertedIds, List.filterMap_cons]

theorem mem_joinedIds (evs : List Ev) (k : Nat) :
    k ∈ joinedIds evs ↔ Ev.joinThread k ∈ evs := by
  induction evs with
  | nil => simp [joinedIds]
  | cons e rest ih =>
    cases e <;> simp_all [joinedIds, List.filterMap_cons]

theorem insertedIds_append (l1 l2 : List Ev) :
    insertedIds (l1 ++ l2) = insertedIds l1 ++ insertedIds l2 := by
  simp [insertedIds, List.filterMap_append]

theorem joinedIds_append (l1 l2 : List Ev) :
    joinedIds (l1 ++ l2) = joinedIds l1 ++ joinedIds l2 := by
  simp [joinedIds, List.filterMap_append]

theorem insertedIds_count (evs : List Ev) (k : Nat) :
    (insertedIds evs).count k = evs.count (Ev.insertHead k) := by
  induction evs with
  | nil => simp [insertedIds]
  | cons e rest ih =>
    cases e <;> simp_all [insertedIds, List.filterMap_cons, List.count_cons]

theorem disc_event_shape {evs : List Ev} (h : ∀ e ∈ evs, discEv e = true) (k : Nat) :
    Ev.freeAddrMem k ∉ evs ∧ Ev.doneMutexDestroy k ∉ evs ∧
      Ev.doneCondDestroy k ∉ evs ∧ Ev.joinThread k ∉ evs := by
  refine ⟨fun hm => ?_, fun hm => ?_, fun hm => ?_, fun hm => ?_⟩ <;>
    · have := h _ hm
      simp [discEv] at this

theorem drain_event_shape {evs : List Ev} (h : ∀ e ∈ evs, drainEv e = true) (k : Nat) :
    Ev.insertHead k ∉ evs ∧ Ev.pthreadCreateOk k ∉ evs := by
  refine ⟨fun hm => ?_, fun hm => ?_⟩ <;>
    · have := h _ hm
      simp [drainEv] at this

theorem drainLoop_registry_empty (reg : List connection_t) :
    (drainLoop reg).2 = [] := by
  induction reg with
  | nil => rfl
  | cons c rest ih => simp [drainLoop, ih]

theorem drainLoop_joined (reg : List connection_t) :
    joinedIds (drainLoop reg).1 = reg.map connection_t.thread := by
  induction reg with
  | nil => rfl
  | cons c rest ih =>
    simp [drainLoop, joinedIds, List.filterMap_cons] at ih ⊢
    exact ih

theorem drainLoop_counts (reg : List connection_t) (k : Nat) :
    (drainLoop reg).1.count (Ev.joinThread k) = (reg.map connection_t.thread).count k ∧
    (drainLoop reg).1.count (Ev.freeAddrMem k) = (reg.map connection_t.thread).count k ∧
    (drainLoop reg).1.count (Ev.doneMutexDestroy k) = (reg.map connection_t.thread).count k ∧
    (drainLoop reg).1.count (Ev.doneCondDestroy k) = (reg.map connection_t.thread).count k ∧
    (drainLoop reg).1.count (Ev.freeRecord k) = (reg.map connection_t.thread).count k := by
  induction reg with
  | nil => simp [drainLoop]
  | cons c rest ih =>
    obtain ⟨i1, i2, i3, i4, i5⟩ := ih
    by_cases hk : c.thread = k <;>
      simp [drainLoop, List.count_cons, i1, i2, i3, i4, i5, hk]

theorem bdd_cases (a : Nat) (addr : String) (nm : Option String)
    (o : DiscOracle) (s : DiscState) :
    ((ble_discovered_device a addr nm o s).2 = s ∧
       (∀ e ∈ (ble_discovered_device a addr nm o s).1, ridOf e = none)) ∨
    ((ble_discovered_device a addr nm o s).2 = { s with nextRid := s.nextRid + 1 } ∧
       Ev.insertHead s.nextRid ∉ (ble_discovered_device a addr nm o s).1 ∧
       (∀ e ∈ (ble_discovered_device a addr nm o s).1, ∀ k, ridOf e = some k →
         k = s.nextRid)) ∨
    ((ble_discovered_device a addr nm o s).2
         = { g_ble_connections :=
               { thread := s.nextRid, adapter := a, addr := addr, is_done := false }
                 :: s.g_ble_connections,
             nextRid := s.nextRid + 1,
             spawnedThreads := s.nextRid :: s.spawnedThreads } ∧
       (ble_discovered_device a addr nm o s).1.count (Ev.insertHead s.nextRid) = 1 ∧
       Ev.freeRecord s.nextRid ∉ (ble_discovered_device a addr nm o s).1 ∧
       (∀ e ∈ (ble_discovered_device a addr nm o s).1, ∀ k, ridOf e = some k →
         k = s.nextRid)) := by
  rcases nm with _ | n
  · refine Or.inl ⟨rfl, ?_⟩
    intro e he
    simp only [ble_discovered_device, List.mem_singleton] at he
    subst he; rfl
  · by_cases h1 : n ≠ CONNECT_DEVICE_NAME
    · refine Or.inl ⟨by simp [ble_discovered_device, h1], ?_⟩
      intro e he
      simp only [ble_discovered_device, if_pos h1, List.mem_singleton] at he
      subst he; rfl
    · by_cases h2 : o.callocOk
      · by_cases h3 : o.pthreadCreateRet ≠ 0
        · refine Or.inr (Or.inl ⟨by simp [ble_discovered_device, h1, h2, h3], ?_, ?_⟩)
          · simp [ble_discovered_device, h1, h2, h3]
          · intro e he k hk
            cases e <;> simp_all [ridOf, ble_discovered_device, h1, h2, h3]
        · refine Or.inr (Or.inr ⟨by simp [ble_discovered_device, h1, h2, h3], ?_, ?_, ?_⟩)
          · simp [ble_discovered_device, h1, h2, h3, List.count_cons]
          · simp [ble_discovered_device, h1, h2, h3]
          · intro e he k hk
            cases e <;> simp_all [ridOf, ble_discovered_device, h1, h2, h3]
      · refine Or.inl ⟨by simp [ble_discovered_device, h1, h2], ?_⟩
        intro e he
        cases e <;> simp_all [ridOf, ble_discovered_device, h1, h2]

theorem list_eq_singleton_of_count (l : List Nat) (a : Nat)
    (h1 : ∀ b ∈ l, b = a) (h2 : l.count a = 1) : l = [a] := by
  induction l with
  | nil => simp at h2
  | cons b t ih =>
    have hb : b = a := h1 b (by simp)
    subst hb
    have ht : t.count b = 0 := by
      have := h2
      simp [List.count_cons] at this
      exact this
    have htn : t = [] := by
      rw [List.eq_nil_iff_forall_not_mem]
      intro c hc
      have hc' : c = b := h1 c (by simp [hc])
      subst hc'
      exact absurd ht (by simp [List.count_eq_zero, hc])
    simp [htn]

theorem insertedIds_nil_of_ridless {evs : List Ev}
    (h : ∀ e ∈ evs, ridOf e = none) : insertedIds evs = [] := by
  rw [List.eq_nil_iff_forall_not_mem]
  intro k hk
  have hm := (mem_insertedIds evs k).1 hk
  have := h _ hm
  simp [ridOf] at this

theorem insertedIds_nil_of_no_insert {evs : List Ev} {rid0 : Nat}
    (hni : Ev.insertHead rid0 ∉ evs)
    (h : ∀ e ∈ evs, ∀ k, ridOf e = some k → k = rid0) : insertedIds evs = [] := by
  rw [List.eq_nil_iff_forall_not_mem]
  intro k hk
  have hm := (mem_insertedIds evs k).1 hk
  have hk0 : k = rid0 := h _ hm k rfl
  subst hk0
  exact hni hm

theorem insertedIds_singleton {evs : List Ev} {rid0 : Nat}
    (hcount : evs.count (Ev.insertHead rid0) = 1)
    (h : ∀ e ∈ evs, ∀ k, ridOf e = some k → k = rid0) : insertedIds evs = [rid0] := by
  refine list_eq_singleton_of_count _ _ ?_ ?_
  · intro k hk
    exact h _ ((mem_insertedIds evs k).1 hk) k rfl
  · rw [insertedIds_count]
    exact hcount

theorem runCallbacks_master (a : Nat) (ads : List Advert) (s : DiscState) :
    s.nextRid ≤ (runCallbacks a ads s).2.nextRid ∧
    (∀ e ∈ (runCallbacks a ads s).1, ∀ k, ridOf e = some k →
       s.nextRid ≤ k ∧ k < (runCallbacks a ads s).2.nextRid) ∧
    (∃ new : List connection_t,
       (runCallbacks a ads s).2.g_ble_connections = new ++ s.g_ble_connections ∧
       new.map connection_t.thread = (insertedIds (runCallbacks a ads s).1).reverse ∧
       (runCallbacks a ads s).2.spawnedThreads
         = (insertedIds (runCallbacks a ads s).1).reverse ++ s.spawnedThreads) ∧
    (∀ k, Ev.insertHead k ∈ (runCallbacks a ads s).1 →
       (runCallbacks a ads s).1.count (Ev.insertHead k) = 1 ∧
       Ev.freeRecord k ∉ (runCallbacks a ads s).1) := by
  induction ads generalizing s with
  | nil =>
    refine ⟨le_refl _, by simp [runCallbacks], ⟨[], by simp [runCallbacks, insertedIds]⟩,
      by simp [runCallbacks]⟩
  | cons ad rest ih =>
    have hsplit :
        runCallbacks a (ad :: rest) s
          = ((ble_discovered_device a ad.addr ad.name ad.disc s).1
               ++ (runCallbacks a rest (ble_discovered_device a ad.addr ad.name ad.disc s).2).1,
             (runCallbacks a rest (ble_discovered_device a ad.addr ad.name ad.disc s).2).2) := by
      simp [runCallbacks]
    rcases bdd_cases a ad.addr ad.name ad.disc s with
      ⟨hs, hrid⟩ | ⟨hs, hni, hrid⟩ | ⟨hs, hcount, hnf, hrid⟩
    · -- the callback call left the state untouched and produced no rid events
      rw [hsplit, hs]
      dsimp only
      obtain ⟨ih1, ih2, ⟨new2, ihr, ihm, ihs⟩, ih4⟩ := ih s
      have hins1 : insertedIds (ble_discovered_device a ad.addr ad.name ad.disc s).1 = [] :=
        insertedIds_nil_of_ridless hrid
      refine ⟨ih1, ?_, ⟨new2, ?_, ?_, ?_⟩, ?_⟩
      · intro e he k hk
        rcases List.mem_append.1 he with he | he
        · exact absurd hk (by simp [hrid e he])
        · exact ih2 e he k hk
      · exact ihr
      · rw [insertedIds_append, hins1, List.nil_append]
        exact ihm
      · rw [insertedIds_append, hins1, List.nil_append]
        exact ihs
      · intro k hk
        have hk2 : Ev.insertHead k ∈ (runCallbacks a rest s).1 := by
          rcases List.mem_append.1 hk with hk | hk
          · exact absurd (hrid _ hk) (by simp [ridOf])
          · exact hk
        have h4 := ih4 k hk2
        constructor
        · rw [List.count_append, List.count_eq_zero.2 ?_, h4.1]
          intro hmem
          exact absurd (hrid _ hmem) (by simp [ridOf])
        · intro hmem
          rcases List.mem_append.1 hmem with hmem | hmem
          · exact absurd (hrid _ hmem) (by simp [ridOf])
          · exact h4.2 hmem
    · -- thread-create failure: only the allocation counter advanced
      rw [hsplit, hs]
      dsimp only
      obtain ⟨ih1, ih2, ⟨new2, ihr, ihm, ihs⟩, ih4⟩ := ih { s with nextRid := s.nextRid + 1 }
      dsimp only at ih1 ih2 ihr ihm ihs ih4
      have hins1 : insertedIds (ble_discovered_device a ad.addr ad.name ad.disc s).1 = [] :=
        insertedIds_nil_of_no_insert hni hrid
      refine ⟨by omega, ?_, ⟨new2, ?_, ?_, ?_⟩, ?_⟩
      · intro e he k hk
        rcases List.mem_append.1 he with he | he
        · have := hrid e he k hk
          have h1 := ih1
          omega
        · have := ih2 e he k hk
          exact ⟨by omega, this.2⟩
      · exact ihr
      · rw [insertedIds_append, hins1, List.nil_append]
        exact ihm
      · rw [insertedIds_append, hins1, List.nil_append]
        exact ihs
      · intro k hk
        have hk2 : Ev.insertHead k
            ∈ (runCallbacks a rest { s with nextRid := s.nextRid + 1 }).1 := by
          rcases List.mem_append.1 hk with hk | hk
          · have := hrid _ hk k (by simp [ridOf])
            subst this
            exact absurd hk hni
          · exact hk
        have h4 := ih4 k hk2
        have hkge : s.nextRid + 1 ≤ k := (ih2 _ hk2 k (by simp [ridOf])).1
        constructor
        · rw [List.count_append, List.count_eq_zero.2 ?_, h4.1]
          intro hmem
          have := hrid _ hmem k (by simp [ridOf])
          omega
        · intro hmem
          rcases List.mem_append.1 hmem with hmem | hmem
          · have := hrid _ hmem k (by simp [ridOf])
            omega
          · exact h4.2 hmem
    · -- success: record inserted at the head, thread spawned
      rw [hsplit, hs]
      dsimp only
      obtain ⟨ih1, ih2, ⟨new2, ihr, ihm, ihs⟩, ih4⟩ := ih
        { g_ble_connections :=
            { thread := s.nextRid, adapter := a, addr := ad.addr, is_done := false }
              :: s.g_ble_connections,
          nextRid := s.nextRid + 1,
          spawnedThreads := s.nextRid :: s.spawnedThreads }
      dsimp only at ih1 ih2 ihr ihm ihs ih4
      have hins1 : insertedIds (ble_discovered_device a ad.addr ad.name ad.disc s).1
          = [s.nextRid] := insertedIds_singleton hcount hrid
      refine ⟨by omega, ?_, ?_, ?_⟩
      · intro e he k hk
        rcases List.mem_append.1 he with he | he
        · have := hrid e he k hk
          have h1 := ih1
          omega
        · have := ih2 e he k hk
          exact ⟨by omega, this.2⟩
      · refine ⟨new2 ++ [{ thread := s.nextRid, adapter := a, addr := ad.addr,
                           is_done := false }], ?_, ?_, ?_⟩
        · rw [ihr]
          simp [List.append_assoc]
        · rw [insertedIds_append, hins1]
          simp [ihm]
        · rw [insertedIds_append, hins1]
          simp [ihs]
      · intro k hk
        rcases List.mem_append.1 hk with hk1 | hk2
        · have hk0 : k = s.nextRid := hrid _ hk1 k (by simp [ridOf])
          subst hk0
          have hnmem2 : Ev.insertHead s.nextRid ∉ (runCallbacks a rest
              { g_ble_connections :=
                  { thread := s.nextRid, adapter := a, addr := ad.addr, is_done := false }
                    :: s.g_ble_connections,
                nextRid := s.nextRid + 1,
                spawnedThreads := s.nextRid :: s.spawnedThreads }).1 := by
            intro hmem
            have := (ih2 _ hmem s.nextRid (by simp [ridOf])).1
            omega
          constructor
          · rw [List.count_append, hcount, List.count_eq_zero.2 hnmem2]
          · intro hmem
            rcases List.mem_append.1 hmem with hmem | hmem
            · exact hnf hmem
            · have := (ih2 _ hmem s.nextRid (by simp [ridOf])).1
              omega
        · have h4 := ih4 k hk2
          have hkge : s.nextRid + 1 ≤ k := (ih2 _ hk2 k (by simp [ridOf])).1
          constructor
          · rw [List.count_append, List.count_eq_zero.2 ?_, h4.1]
            intro hmem
            have := hrid _ hmem k (by simp [ridOf])
            omega
          · intro hmem
            rcases List.mem_append.1 hmem with hmem | hmem
            · have := hrid _ hmem k (by simp [ridOf])
              omega
            · exact h4.2 hmem

theorem joinedIds_nil_of_disc {evs : List Ev}
    (h : ∀ e ∈ evs, discEv e = true) : joinedIds evs = [] := by
  rw [List.eq_nil_iff_forall_not_mem]
  intro k hk
  exact (disc_event_shape h k).2.2.2 ((mem_joinedIds _ _).1 hk)

theorem insertedIds_nil_of_drain {evs : List Ev}
    (h : ∀ e ∈ evs, drainEv e = true) : insertedIds evs = [] := by
  rw [List.eq_nil_iff_forall_not_mem]
  intro k hk
  exact (drain_event_shape h k).1 ((mem_insertedIds _ _).1 hk)

/-- C9: in a successful run, the drain loop joins the workers in reverse
insertion order (head insertion, head drain), the registry is empty when the
loop exits, and for every inserted record each of its resources (address
string, mutex, condition variable, record struct) is released exactly once
and its thread joined exactly once, over the whole run. -/
theorem drain_reverse_order_and_release_once (o : TaskOracle)
    (hopen : o.adapterOpenRet = 0) (hscan : o.scanRet = 0) :
    (ble_task o).registry = [] ∧
    joinedIds (ble_task o).events = (insertedIds (ble_task o).events).reverse ∧
    (∀ rid ∈ insertedIds (ble_task o).events,
       (ble_task o).events.count (Ev.joinThread rid) = 1 ∧
       (ble_task o).events.count (Ev.freeAddrMem rid) = 1 ∧
       (ble_task o).events.count (Ev.doneMutexDestroy rid) = 1 ∧
       (ble_task o).events.count (Ev.doneCondDestroy rid) = 1 ∧
       (ble_task o).events.count (Ev.freeRecord rid) = 1) := by
  have hnotopen : ¬ o.adapterOpenRet ≠ 0 := by simp [hopen]
  have hnotscan : ¬ o.scanRet ≠ 0 := by simp [hscan]
  obtain ⟨hm1, hm2, ⟨new, hreg, hmap, hsp⟩, hm4⟩ :=
    runCallbacks_master 0 o.ads initialState
  have hcbdisc := runCallbacks_events_disc 0 o.ads initialState
  have hdrdisc := drainLoop_events_drain
    (runCallbacks 0 o.ads initialState).2.g_ble_connections
  have hregnew : (runCallbacks 0 o.ads initialState).2.g_ble_connections = new := by
    simpa [initialState] using hreg
  have hjoincb : joinedIds (runCallbacks 0 o.ads initialState).1 = [] :=
    joinedIds_nil_of_disc hcbdisc
  have hinsdr :
      insertedIds (drainLoop (runCallbacks 0 o.ads initialState).2.g_ble_connections).1
        = [] := insertedIds_nil_of_drain hdrdisc
  have hjoindr := drainLoop_joined (runCallbacks 0 o.ads initialState).2.g_ble_connections
  unfold ble_task
  rw [if_neg hnotopen, if_neg hnotscan]
  dsimp only
  have eJpre : joinedIds [Ev.adapterOpenCall, Ev.lockG, Ev.scanEnableCall] = [] := rfl
  have eJmid : joinedIds [Ev.scanDisableCall, Ev.putsScanCompleted, Ev.unlockG] = [] := rfl
  have eJcl : joinedIds [Ev.adapterCloseCall] = [] := rfl
  have eIpre : insertedIds [Ev.adapterOpenCall, Ev.lockG, Ev.scanEnableCall] = [] := rfl
  have eImid : insertedIds [Ev.scanDisableCall, Ev.putsScanCompleted, Ev.unlockG] = [] := rfl
  have eIcl : insertedIds [Ev.adapterCloseCall] = [] := rfl
  refine ⟨drainLoop_registry_empty _, ?_, ?_⟩
  · simp only [joinedIds_append, insertedIds_append, eJpre, eJmid, eJcl, eIpre,
      eImid, eIcl, hjoincb, hinsdr, hjoindr, List.nil_append, List.append_nil]
    rw [hregnew, hmap]
  · intro rid hrid
    have hridcb : rid ∈ insertedIds (runCallbacks 0 o.ads initialState).1 := by
      simp only [insertedIds_append, eIpre, eImid, eIcl, hinsdr, List.nil_append,
        List.append_nil] at hrid
      exact hrid
    have hmemcb : Ev.insertHead rid ∈ (runCallbacks 0 o.ads initialState).1 :=
      (mem_insertedIds _ _).1 hridcb
    have h4 := hm4 rid hmemcb
    have hcount_ids :
        ((runCallbacks 0 o.ads initialState).2.g_ble_connections.map
            connection_t.thread).count rid = 1 := by
      rw [hregnew, hmap, List.count_reverse, insertedIds_count]
      exact h4.1
    obtain ⟨d1, d2, d3, d4, d5⟩ := drainLoop_counts
      (runCallbacks 0 o.ads initialState).2.g_ble_connections rid
    have hshape := disc_event_shape hcbdisc rid
    refine ⟨?_, ?_, ?_, ?_, ?_⟩
    · simp only [List.count_append]
      rw [List.count_eq_zero.2 hshape.2.2.2, d1, hcount_ids]
      simp [List.count_cons]
    · simp only [List.count_append]
      rw [List.count_eq_zero.2 hshape.1, d2, hcount_ids]
      simp [List.count_cons]
    · simp only [List.count_append]
      rw [List.count_eq_zero.2 hshape.2.1, d3, hcount_ids]
      simp [List.count_cons]
    · simp only [List.count_append]
      rw [List.count_eq_zero.2 hshape.2.2.1, d4, hcount_ids]
      simp [List.count_cons]
    · simp only [List.count_append]
      rw [List.count_eq_zero.2 h4.2, d5, hcount_ids]
      simp [List.count_cons]

/-- C9 witness: two matching advertisements; the drain joins in reverse
insertion order and releases each record's resources exactly once. -/
theorem drain_reverse_order_and_release_once_witness :
    (ble_task sampleRunTwoMatches).registry = [] ∧
      joinedIds (ble_task sampleRunTwoMatches).events
        = (insertedIds (ble_task sampleRunTwoMatches).events).reverse := by
  have h := drain_reverse_order_and_release_once sampleRunTwoMatches rfl rfl
  exact ⟨h.1, h.2.1⟩

/-- C10: a record whose thread creation failed is never inserted into the
registry, and every thread joined by the drain loop is a thread that
`pthread_create` actually spawned. -/
theorem registry_joins_target_spawned :
    (∀ (a : Nat) (addr : String) (nm : Option String) (oD : DiscOracle)
        (s : DiscState), oD.pthreadCreateRet ≠ 0 →
        (ble_discovered_device a addr nm oD s).2.g_ble_connections
          = s.g_ble_connections) ∧
    (∀ (o : TaskOracle) (t : Nat),
        Ev.joinThread t ∈ (ble_task o).events → t ∈ (ble_task o).spawned) := by
  constructor
  · intro a addr nm oD s hfail
    rcases nm with _ | n
    · rfl
    · by_cases h1 : n ≠ CONNECT_DEVICE_NAME
      · simp [ble_discovered_device, h1]
      · by_cases h2 : oD.callocOk <;> simp [ble_discovered_device, h1, h2, hfail]
  · intro o t ht
    by_cases ho : o.adapterOpenRet ≠ 0
    · unfold ble_task at ht
      rw [if_pos ho] at ht
      simp at ht
    · have hcbdisc := runCallbacks_events_disc 0 o.ads initialState
      by_cases hsc : o.scanRet ≠ 0
      · unfold ble_task at ht
        rw [if_neg ho, if_pos hsc] at ht
        dsimp only at ht
        rcases List.mem_append.1 ht with ht | ht
        · rcases List.mem_append.1 ht with ht | ht
          · simp at ht
          · exact absurd ht ((disc_event_shape hcbdisc t).2.2.2)
        · simp at ht
      · obtain ⟨hm1, hm2, ⟨new, hreg, hmap, hsp⟩, hm4⟩ :=
          runCallbacks_master 0 o.ads initialState
        have hregnew : (runCallbacks 0 o.ads initialState).2.g_ble_connections
            = new := by
          simpa [initialState] using hreg
        have hspawn : (runCallbacks 0 o.ads initialState).2.spawnedThreads
            = (insertedIds (runCallbacks 0 o.ads initialState).1).reverse := by
          simpa [initialState] using hsp
        unfold ble_task at ht ⊢
        rw [if_neg ho, if_neg hsc] at ht ⊢
        dsimp only at ht ⊢
        have hjoin : t ∈ joinedIds
            ((drainLoop (runCallbacks 0 o.ads initialState).2.g_ble_connections).1) := by
          rw [mem_joinedIds]
          have hdrdisc := drainLoop_events_drain
            (runCallbacks 0 o.ads initialState).2.g_ble_connections
          rcases List.mem_append.1 ht with ht | ht
          · rcases List.mem_append.1 ht with ht | ht
            · rcases List.mem_append.1 ht with ht | ht
              · rcases List.mem_append.1 ht with ht | ht
                · simp at ht
                · exact absurd ht ((disc_event_shape hcbdisc t).2.2.2)
              · simp at ht
            · exact ht
          · simp at ht
        rw [drainLoop_joined, hregnew, hmap] at hjoin
        rw [hspawn]
        simpa using hjoin

/-- C10 witness: a failed spawn inserts nothing; in a successful run the
drain's join targets the spawned thread 0. -/
theorem registry_joins_target_spawned_witness :
    (ble_discovered_device 0 "AA" (some "Local")
          { callocOk := true, pthreadCreateRet := 5 } initialState).2.g_ble_connections
        = [] ∧
      (0 : Nat) ∈ (ble_task sampleRunOneMatch).spawned := by
  constructor
  · exact registry_joins_target_spawned.1 0 "AA" (some "Local")
      { callocOk := true, pthreadCreateRet := 5 } initialState (by decide)
  · exact registry_joins_target_spawned.2 sampleRunOneMatch 0 (by decide)

theorem GInv_init (n : Nat) : GInv (gInit n) := by
  intro i hi
  simp [gInit, inCritical] at hi

theorem GInv_step {n : Nat} {s s' : GMutexSys n} (hinv : GInv s)
    (hstep : GStep n s s') : GInv s' := by
  cases hstep with
  | acquire i h ho =>
    intro j hj
    by_cases hij : j = i
    · subst hij; rfl
    · simp only [Function.update_noteq hij] at hj
      exact absurd (hinv j hj) (by simp [ho])
  | printStart i h =>
    intro j hj
    by_cases hij : j = i
    · subst hij
      exact hinv j (by rw [h]; rfl)
    · simp only [Function.update_noteq hij] at hj
      exact hinv j hj
  | connectCall i h =>
    intro j hj
    by_cases hij : j = i
    · subst hij
      exact hinv j (by rw [h]; rfl)
    · simp only [Function.update_noteq hij] at hj
      exact hinv j hj
  | doneWait i h =>
    intro j hj
    by_cases hij : j = i
    · subst hij
      exact hinv j (by rw [h]; rfl)
    · simp only [Function.update_noteq hij] at hj
      exact hinv j hj
  | printDone i h =>
    intro j hj
    by_cases hij : j = i
    · subst hij
      exact hinv j (by rw [h]; rfl)
    · simp only [Function.update_noteq hij] at hj
      exact hinv j hj
  | release i h =>
    intro j hj
    by_cases hij : j = i
    · subst hij
      simp [Function.update_same, inCritical] at hj
    · simp only [Function.update_noteq hij] at hj
      have hj' := hinv j hj
      have hi' := hinv i (by rw [h]; rfl)
      rw [hi'] at hj'
      exact absurd (Option.some.inj hj') (fun he => hij he.symm)

theorem GReach_inv {n : Nat} (s : GMutexSys n) (h : GReach n s) : GInv s := by
  induction h with
  | refl => exact GInv_init n
  | tail _ hstep ih => exact GInv_step ih hstep

/-- C1: for any number `n` of worker threads, in every reachable state of
the `g_mutex` system at most one worker is inside its
connect/discover/disconnect critical section: any two workers both inside
are the same worker. -/
theorem g_mutex_mutual_exclusion (n : Nat) (s : GMutexSys n) (h : GReach n s)
    (i j : Fin n) (hi : inCritical (s.pcs i) = true)
    (hj : inCritical (s.pcs j) = true) : i = j := by
  have hinv := GReach_inv s h
  have h1 := hinv i hi
  have h2 := hinv j hj
  rw [h1] at h2
  exact Option.some.inj h2

/-- C1 witness: with two workers, after worker 0 acquires `g_mutex` it is
inside its critical section, and mutual exclusion applied there is
discharged concretely. -/
theorem g_mutex_mutual_exclusion_witness :
    inCritical ((Function.update (fun _ : Fin 2 => WPC.start) 0
        WPC.printStartSt) 0) = true ∧
      (0 : Fin 2) = (0 : Fin 2) := by
  have hcrit : inCritical ((Function.update (fun _ : Fin 2 => WPC.start) 0
      WPC.printStartSt) 0) = true := by
    simp [inCritical]
  have hreach : GReach 2
      { gOwner := some 0,
        pcs := Function.update (fun _ : Fin 2 => WPC.start) 0 WPC.printStartSt } :=
    Relation.ReflTransGen.single (GStep.acquire (gInit 2) 0 rfl rfl)
  exact ⟨hcrit, g_mutex_mutual_exclusion 2 _ hreach 0 0 hcrit hcrit⟩

theorem RInv_init : RInv recordInit := by
  refine ⟨?_, ?_, ?_, ?_, rfl, rfl, ?_⟩ <;> intro h
  · exact absurd h (by simp [recordInit, cpcCrit])
  · exact absurd h (by simp [recordInit])
  · exact absurd h (by simp [recordInit, wpcCrit])
  · exact absurd h (by simp [recordInit])
  · rcases h with h | h <;> exact absurd h (by simp [recordInit])

theorem RInv_step {s s' : RecordSys} (hinv : RInv s) (hstep : RStep s s') :
    RInv s' := by
  obtain ⟨h1, h2, h3, h4, h5, h6, h7⟩ := hinv
  cases hstep with
  | workerLock h ho =>
    refine ⟨?_, ?_, ?_, ?_, h5, h6, ?_⟩
    · intro hc
      exact absurd (h1 hc) (by simp [ho])
    · intro hcb
      simp at hcb
    · intro _
      rfl
    · intro _
      rfl
    · intro hw
      rcases hw with hw | hw <;> simp at hw
  | workerCheckTrue h hd =>
    refine ⟨h1, h2, ?_, ?_, h5, h6, ?_⟩
    · intro _
      exact h3 (by rw [h]; rfl)
    · intro _
      rfl
    · intro _
      exact hd
  | workerCheckFalse h hd =>
    refine ⟨?_, ?_, ?_, ?_, h5, h6, ?_⟩
    · intro hc
      exact absurd (h1 hc) (by simp [h3 (show wpcCrit s.wpc = true by rw [h]; rfl)])
    · intro hcb
      simp at hcb
    · intro hw
      simp [wpcCrit] at hw
    · intro hw
      simp at hw
    · intro hw
      rcases hw with hw | hw <;> simp at hw
  | workerWake h ho =>
    refine ⟨?_, ?_, ?_, ?_, h5, h6, ?_⟩
    · intro hc
      exact absurd (h1 hc) (by simp [ho])
    · intro hcb
      simp at hcb
    · intro _
      rfl
    · intro _
      rfl
    · intro hw
      rcases hw with hw | hw <;> simp at hw
  | workerUnlock h =>
    refine ⟨?_, ?_, ?_, ?_, h5, h6, ?_⟩
    · intro hc
      have hcb := h1 hc
      rw [h3 (show wpcCrit s.wpc = true by rw [h]; rfl)] at hcb
      simp at hcb
    · intro hcb
      simp at hcb
    · intro hw
      simp [wpcCrit] at hw
    · intro hw
      simp at hw
    · intro _
      exact h7 (Or.inl h)
  | cbBody h =>
    refine ⟨?_, ?_, h3, h4, ?_, ?_, h7⟩
    · intro hc
      simp [cpcCrit] at hc
    · intro hcb
      have := h2 hcb
      rw [h] at this
      simp [cpcCrit] at this
    · simpa [cpcLate, h] using h5
    · simpa [cpcSignaled, h] using h6
  | cbLock h ho =>
    refine ⟨?_, ?_, ?_, ?_, ?_, ?_, h7⟩
    · intro _
      rfl
    · intro _
      rfl
    · intro hw
      exact absurd (h3 hw) (by simp [ho])
    · intro hww
      simp at hww
    · simpa [cpcLate, h] using h5
    · simpa [cpcSignaled, h] using h6
  | cbSet h =>
    refine ⟨?_, ?_, h3, h4, ?_, ?_, ?_⟩
    · intro _
      exact h1 (by rw [h]; rfl)
    · intro _
      rfl
    · simp [cpcLate]
    · simpa [cpcSignaled, h] using h6
    · intro _
      rfl
  | cbSignal h =>
    refine ⟨?_, ?_, h3, h4, ?_, ?_, h7⟩
    · intro _
      exact h1 (by rw [h]; rfl)
    · intro _
      rfl
    · simpa [cpcLate, h] using h5
    · have h0 : s.signals = 0 := by simpa [cpcSignaled, h] using h6
      simp [cpcSignaled, h0]
  | cbUnlock h =>
    refine ⟨?_, ?_, ?_, ?_, ?_, ?_, h7⟩
    · intro hc
      simp [cpcCrit] at hc
    · intro hcb
      simp at hcb
    · intro hw
      have hcontra := h3 hw
      rw [h1 (show cpcCrit s.cpc = true by rw [h]; rfl)] at hcontra
      simp at hcontra
    · intro hw
      simp at hw
    · simpa [cpcLate, h] using h5
    · simpa [cpcSignaled, h] using h6

theorem RReach_inv {s : RecordSys} (h : RReach s) : RInv s := by
  induction h with
  | refl => exact RInv_init
  | tail _ hstep ih => exact RInv_step ih hstep

/-- C2: over all reachable states of the record handoff: any step changing
`is_done` flips it from false to true and is taken by the callback at its
assignment site while it holds the record's `done_mutex` (so `is_done` is
written at most once, only by the callback, under the record's lock); any
step changing the signal count is the callback's single
`pthread_cond_signal`, performed exactly once (the count never exceeds 1 and
equals 1 once the callback has returned); and from any state where the
callback has finished, the waiting worker's wait terminates (it can reach
its `unlocked` state). -/
theorem is_done_single_writer_signal_once :
    (∀ s s', RReach s → RStep s s' → s.is_done ≠ s'.is_done →
       s.is_done = false ∧ s'.is_done = true ∧ s.cpc = CbPC.setFlag ∧
       s.doneOwner = some DOwner.callbackThread) ∧
    (∀ s s', RReach s → RStep s s' → s.signals ≠ s'.signals →
       s'.signals = s.signals + 1 ∧ s.signals = 0 ∧ s.cpc = CbPC.signalStep ∧
       s.doneOwner = some DOwner.callbackThread) ∧
    (∀ s, RReach s → s.signals ≤ 1) ∧
    (∀ s, RReach s → s.cpc = CbPC.finished →
       s.signals = 1 ∧ s.is_done = true ∧
       ∃ t, Relation.ReflTransGen RStep s t ∧ t.wpc = WaitPC.unlocked) := by
  refine ⟨?_, ?_, ?_, ?_⟩
  · intro s s' hr hstep hne
    obtain ⟨h1, h2, h3, h4, h5, h6, h7⟩ := RReach_inv hr
    cases hstep with
    | workerLock h ho => exact absurd rfl hne
    | workerCheckTrue h hd => exact absurd rfl hne
    | workerCheckFalse h hd => exact absurd rfl hne
    | workerWake h ho => exact absurd rfl hne
    | workerUnlock h => exact absurd rfl hne
    | cbBody h => exact absurd rfl hne
    | cbLock h ho => exact absurd rfl hne
    | cbSet h =>
      refine ⟨?_, rfl, h, h1 (by rw [h]; rfl)⟩
      rw [h5, h]
      rfl
    | cbSignal h => exact absurd rfl hne
    | cbUnlock h => exact absurd rfl hne
  · intro s s' hr hstep hne
    obtain ⟨h1, h2, h3, h4, h5, h6, h7⟩ := RReach_inv hr
    cases hstep with
    | workerLock h ho => exact absurd rfl hne
    | workerCheckTrue h hd => exact absurd rfl hne
    | workerCheckFalse h hd => exact absurd rfl hne
    | workerWake h ho => exact absurd rfl hne
    | workerUnlock h => exact absurd rfl hne
    | cbBody h => exact absurd rfl hne
    | cbLock h ho => exact absurd rfl hne
    | cbSet h => exact absurd rfl hne
    | cbSignal h =>
      refine ⟨rfl, ?_, h, h1 (by rw [h]; rfl)⟩
      simpa [cpcSignaled, h] using h6
    | cbUnlock h => exact absurd rfl hne
  · intro s hr
    obtain ⟨h1, h2, h3, h4, h5, h6, h7⟩ := RReach_inv hr
    rw [h6]
    split <;> omega
  · intro s hr hcpc
    obtain ⟨h1, h2, h3, h4, h5, h6, h7⟩ := RReach_inv hr
    have hsig : s.signals = 1 := by simpa [cpcSignaled, hcpc] using h6
    have hdone : s.is_done = true := by simpa [cpcLate, hcpc] using h5
    refine ⟨hsig, hdone, ?_⟩
    have hnotcb : s.doneOwner ≠ some DOwner.callbackThread := by
      intro hcb
      have := h2 hcb
      rw [hcpc] at this
      simp [cpcCrit] at this
    rcases hw : s.wpc with _ | _ | _ | _ | _
    · -- worker about to lock: the mutex must be free
      have hnone : s.doneOwner = none := by
        rcases hoc : s.doneOwner with _ | d
        · rfl
        · cases d
          · have := h4 hoc
            rw [hw] at this
            simp [wpcCrit] at this
          · exact absurd hoc hnotcb
      refine ⟨_, Relation.ReflTransGen.head (RStep.workerLock s hw hnone)
        (Relation.ReflTransGen.head (RStep.workerCheckTrue _ rfl hdone)
          (Relation.ReflTransGen.head (RStep.workerUnlock _ rfl)
            Relation.ReflTransGen.refl)), rfl⟩
    · -- worker at the loop test: is_done is already true
      refine ⟨_, Relation.ReflTransGen.head (RStep.workerCheckTrue s hw hdone)
        (Relation.ReflTransGen.head (RStep.workerUnlock _ rfl)
          Relation.ReflTransGen.refl), rfl⟩
    · -- worker parked in pthread_cond_wait: the mutex must be free
      have hnone : s.doneOwner = none := by
        rcases hoc : s.doneOwner with _ | d
        · rfl
        · cases d
          · have := h4 hoc
            rw [hw] at this
            simp [wpcCrit] at this
          · exact absurd hoc hnotcb
      refine ⟨_, Relation.ReflTransGen.head (RStep.workerWake s hw hnone)
        (Relation.ReflTransGen.head (RStep.workerCheckTrue _ rfl hdone)
          (Relation.ReflTransGen.head (RStep.workerUnlock _ rfl)
            Relation.ReflTransGen.refl)), rfl⟩
    · -- worker out of the loop: just unlock
      refine ⟨_, Relation.ReflTransGen.single (RStep.workerUnlock s hw), rfl⟩
    · -- worker already done
      exact ⟨s, Relation.ReflTransGen.refl, hw⟩

/-- C2 witness: run the callback to completion from the initial state (five
steps); applying the theorem there gives one signal, the set flag, and a
terminating wait; the is_done-writer clause is exercised at the concrete
`cbSet` step. -/
theorem is_done_single_writer_signal_once_witness :
    ({ is_done := true, doneOwner := none, wpc := WaitPC.beforeLock,
       cpc := CbPC.finished, signals := 1 } : RecordSys).signals = 1 ∧
      (∃ t, Relation.ReflTransGen RStep
          { is_done := true, doneOwner := none, wpc := WaitPC.beforeLock,
            cpc := CbPC.finished, signals := 1 } t ∧ t.wpc = WaitPC.unlocked) ∧
      ({ is_done := false, doneOwner := some DOwner.callbackThread,
         wpc := WaitPC.beforeLock, cpc := CbPC.setFlag,
         signals := 0 } : RecordSys).cpc = CbPC.setFlag := by
  have hr2 : RReach
      { is_done := false, doneOwner := some DOwner.callbackThread,
        wpc := WaitPC.beforeLock, cpc := CbPC.setFlag, signals := 0 } :=
    Relation.ReflTransGen.head (RStep.cbBody recordInit rfl)
      (Relation.ReflTransGen.single (RStep.cbLock _ rfl rfl))
  have hr5 : RReach
      { is_done := true, doneOwner := none,
        wpc := WaitPC.beforeLock, cpc := CbPC.finished, signals := 1 } :=
    Relation.ReflTransGen.head (RStep.cbBody recordInit rfl)
      (Relation.ReflTransGen.head (RStep.cbLock _ rfl rfl)
        (Relation.ReflTransGen.head (RStep.cbSet _ rfl)
          (Relation.ReflTransGen.head (RStep.cbSignal _ rfl)
            (Relation.ReflTransGen.single (RStep.cbUnlock _ rfl)))))
  have h4 := is_done_single_writer_signal_once.2.2.2 _ hr5 rfl
  have h1 := is_done_single_writer_signal_once.1 _ _ hr2
    (RStep.cbSet _ rfl) (by simp)
  exact ⟨h4.1, h4.2.2, h1.2.2.1⟩

end BleScan
